import Mathlib

/-!
A shallow embedding of the `docledger` Hyperledger Fabric chaincode
(`docledger.go`) and proofs about its handlers.

The chaincode is a dispatch-and-CRUD layer over a host-provided key-value
ledger.  We model:
  * the record type `StudentDoc` (fields `docStatus`, `owner`),
  * the JSON byte encoding produced by Go `encoding/json` for this
    struct (including Go default HTML escaping) and the corresponding
    decoding,
  * the ledger stub (`shim.ChaincodeStubInterface`) as a key-value
    association list plus a history oracle and a timestamp formatter,
  * the seven handlers and the `Invoke` dispatcher, translated
    line-by-line from the Go source.
-/

namespace DocLedger

/-- The StudentDoc structure of the chaincode, with its two JSON-tagged
properties `docStatus` and `owner`. -/
structure StudentDoc where
  docStatus : String
  owner : String
deriving DecidableEq, Repr

/-- Hex digit character (lowercase), as used by Go JSON encoder in
`\u00XX` escapes. -/
def hexDigitChar (n : Nat) : Char :=
  if n < 10 then Char.ofNat (48 + n) else Char.ofNat (87 + n)

/-- Models how Go `encoding/json` encoder (with its default HTML
escaping) encodes one character of a string value: quote and backslash
are escaped, `\n`, `\r`, `\t` use short escapes, other control
characters and the HTML-sensitive characters use `\u00XX`-style escapes,
U+2028/U+2029 are escaped, everything else is emitted verbatim. -/
def encodeChar (c : Char) : List Char :=
  if c = '"' then ['\\', '"']
  else if c = '\\' then ['\\', '\\']
  else if c = '\n' then ['\\', 'n']
  else if c = '\r' then ['\\', 'r']
  else if c = '\t' then ['\\', 't']
  else if c = '<' then ['\\', 'u', '0', '0', '3', 'c']
  else if c = '>' then ['\\', 'u', '0', '0', '3', 'e']
  else if c = '&' then ['\\', 'u', '0', '0', '2', '6']
  else if c.toNat < 32 then
    ['\\', 'u', '0', '0', hexDigitChar (c.toNat / 16), hexDigitChar (c.toNat % 16)]
  else if c.toNat = 0x2028 then ['\\', 'u', '2', '0', '2', '8']
  else if c.toNat = 0x2029 then ['\\', 'u', '2', '0', '2', '9']
  else [c]

/-- JSON-escape a character list (string body). -/
def escapeChars : List Char → List Char
  | [] => []
  | c :: cs => encodeChar c ++ escapeChars cs

/-- JSON-escape a string value the way Go encoder does. -/
def goEscape (s : String) : String := String.mk (escapeChars s.data)

/-- Models `json.Marshal` on a `StudentDoc`: Go emits the fields in
struct order with their JSON tags and no whitespace,
`\x7b"docStatus":"…","owner":"…"\x7d`. -/
def marshalStudentDoc (d : StudentDoc) : String :=
  "\x7b\"docStatus\":\"" ++ goEscape d.docStatus ++ "\",\"owner\":\"" ++
    goEscape d.owner ++ "\"\x7d"

/-- Value of a hexadecimal digit character, as accepted in JSON `\uXXXX`
escapes. -/
def hexVal (c : Char) : Option Nat :=
  if 48 ≤ c.toNat ∧ c.toNat ≤ 57 then some (c.toNat - 48)
  else if 97 ≤ c.toNat ∧ c.toNat ≤ 102 then some (c.toNat - 87)
  else if 65 ≤ c.toNat ∧ c.toNat ≤ 70 then some (c.toNat - 55)
  else none

/-- JSON string-body parser: consumes characters (processing escape
sequences) up to and including an unescaped closing quote, returning the
decoded characters and the rest of the input.  Models the string
decoding inside Go `json.Unmarshal`. -/
def parseStrAux (acc : List Char) : List Char → Option (List Char × List Char)
  | [] => none
  | c :: rest =>
    if c = '"' then some (acc.reverse, rest)
    else if c = '\\' then
      match rest with
      | [] => none
      | e :: rest2 =>
        if e = '"' then parseStrAux ('"' :: acc) rest2
        else if e = '\\' then parseStrAux ('\\' :: acc) rest2
        else if e = '/' then parseStrAux ('/' :: acc) rest2
        else if e = 'n' then parseStrAux ('\n' :: acc) rest2
        else if e = 'r' then parseStrAux ('\r' :: acc) rest2
        else if e = 't' then parseStrAux ('\t' :: acc) rest2
        else if e = 'b' then parseStrAux ('\x08' :: acc) rest2
        else if e = 'f' then parseStrAux ('\x0c' :: acc) rest2
        else if e = 'u' then
          match rest2 with
          | h1 :: h2 :: h3 :: h4 :: rest3 =>
            match hexVal h1, hexVal h2, hexVal h3, hexVal h4 with
            | some a, some b, some c2, some d =>
              parseStrAux (Char.ofNat ((((a * 16 + b) * 16 + c2) * 16 + d)) :: acc) rest3
            | _, _, _, _ => none
          | _ => none
        else none
    else parseStrAux (c :: acc) rest

/-- Drop an expected literal character sequence from the front of the
input, failing if it does not match. -/
def dropLit : List Char → List Char → Option (List Char)
  | [], s => some s
  | _ :: _, [] => none
  | l :: ls, c :: cs => if c = l then dropLit ls cs else none

/-- Models `json.Unmarshal` of ledger bytes into a `StudentDoc`,
restricted to the canonical object shape this chaincode itself writes
(`\x7b"docStatus":"…","owner":"…"\x7d`); any other input is a decode
failure (`none`). -/
def unmarshalStudentDoc (s : String) : Option StudentDoc :=
  match dropLit ("\x7b\"docStatus\":\"".data) s.data with
  | none => none
  | some r1 =>
    match parseStrAux [] r1 with
    | none => none
    | some (st, r2) =>
      match dropLit (",\"owner\":\"".data) r2 with
      | none => none
      | some r3 =>
        match parseStrAux [] r3 with
        | none => none
        | some (ow, r4) =>
          if r4 = ("\x7d" : String).data then some ⟨String.mk st, String.mk ow⟩ else none

/-- Whitespace characters of the JSON grammar (as in the Go scanner). -/
def isWs (c : Char) : Bool := c = ' ' || c = '\t' || c = '\n' || c = '\r'

/-- Drop leading JSON whitespace. -/
def skipWs : List Char → List Char
  | [] => []
  | c :: cs => if isWs c then skipWs cs else c :: cs

/-- Drop leading decimal digits. -/
def skipDigits : List Char → List Char
  | [] => []
  | c :: cs => if c.isDigit then skipDigits cs else c :: cs

/-- Consume the integer part of a JSON number: `0`, or a nonzero digit
followed by digits. -/
def parseIntPart : List Char → Option (List Char)
  | [] => none
  | c :: cs =>
    if c = '0' then some cs
    else if c.isDigit then some (skipDigits cs)
    else none

/-- Consume an optional JSON fraction part `.digits`. -/
def parseFracPart : List Char → Option (List Char)
  | '.' :: c :: cs => if c.isDigit then some (skipDigits cs) else none
  | '.' :: [] => none
  | cs => some cs

/-- Consume an optional JSON exponent part. -/
def parseExpPart : List Char → Option (List Char)
  | [] => some []
  | e :: rest =>
    if e = 'e' ∨ e = 'E' then
      match rest with
      | '+' :: c :: cs => if c.isDigit then some (skipDigits cs) else none
      | '-' :: c :: cs => if c.isDigit then some (skipDigits cs) else none
      | c :: cs => if c.isDigit then some (skipDigits cs) else none
      | [] => none
    else some (e :: rest)

/-- Consume a JSON number (RFC 8259 grammar). -/
def parseNumber (cs : List Char) : Option (List Char) :=
  let cs0 := match cs with
    | '-' :: t => t
    | t => t
  match parseIntPart cs0 with
  | none => none
  | some cs1 =>
    match parseFracPart cs1 with
    | none => none
    | some cs2 => parseExpPart cs2

/-- Parser mode for `skipJson`: one JSON value, the remainder of an
array, or the remainder of an object (the flag tells whether no element
has been consumed yet). -/
inductive SkipMode where
  | value
  | arrayRest (first : Bool)
  | objectRest (first : Bool)

/-- Validate and consume one JSON value (or array/object remainder), as
the Go syntax scanner accepts; `fuel` bounds the recursion depth.  Go
validates the whole document before decoding, so the decoder below
populates no field unless this validation succeeds. -/
def skipJson : Nat → SkipMode → List Char → Option (List Char)
  | 0, _, _ => none
  | fuel + 1, SkipMode.value, cs =>
    match cs with
    | [] => none
    | c :: cs1 =>
      if c = '"' then
        match parseStrAux [] cs1 with
        | none => none
        | some pr => some pr.2
      else if c = 't' then dropLit ['r', 'u', 'e'] cs1
      else if c = 'f' then dropLit ['a', 'l', 's', 'e'] cs1
      else if c = 'n' then dropLit ['u', 'l', 'l'] cs1
      else if c = '[' then skipJson fuel (SkipMode.arrayRest true) (skipWs cs1)
      else if c = '\x7b' then skipJson fuel (SkipMode.objectRest true) (skipWs cs1)
      else parseNumber cs
  | fuel + 1, SkipMode.arrayRest first, cs =>
    match cs with
    | [] => none
    | c :: cs1 =>
      if first = true ∧ c = ']' then some cs1
      else
        match skipJson fuel SkipMode.value cs with
        | none => none
        | some cs2 =>
          match skipWs cs2 with
          | ',' :: cs3 => skipJson fuel (SkipMode.arrayRest false) (skipWs cs3)
          | ']' :: cs3 => some cs3
          | _ => none
  | fuel + 1, SkipMode.objectRest first, cs =>
    match cs with
    | [] => none
    | c :: cs1 =>
      if first = true ∧ c = '\x7d' then some cs1
      else if c = '"' then
        match parseStrAux [] cs1 with
        | none => none
        | some pr =>
          match skipWs pr.2 with
          | ':' :: cs3 =>
            match skipJson fuel SkipMode.value (skipWs cs3) with
            | none => none
            | some cs4 =>
              match skipWs cs4 with
              | ',' :: cs5 => skipJson fuel (SkipMode.objectRest false) (skipWs cs5)
              | cc :: cs5 => if cc = '\x7d' then some cs5 else none
              | [] => none
          | _ => none
      else none

/-- The decoded shape of one object member value, as far as decoding a
`StudentDoc` cares: a JSON string (decoded), JSON `null` (which leaves
the field unchanged without error), or any other JSON value (a type
error for a string field). -/
inductive JsonFieldVal where
  | str (s : String)
  | null
  | other
deriving DecidableEq, Repr

/-- Parse the members of the top-level JSON object (after its opening
brace and leading whitespace): the members in document order, each name
decoded and its value classified by `JsonFieldVal`, plus the input
following the closing brace.  Fails on any syntax error, modeling that
Go validates the whole document before populating any field. -/
def parseTopMembers : Nat → List Char → Bool → Option (List (String × JsonFieldVal) × List Char)
  | 0, _, _ => none
  | fuel + 1, cs, first =>
    match cs with
    | [] => none
    | c :: cs1 =>
      if c = '"' then
        match parseStrAux [] cs1 with
        | none => none
        | some (nm, cs2) =>
          match skipWs cs2 with
          | ':' :: cs3 =>
            match
              (match skipWs cs3 with
               | '"' :: cs4 =>
                 match parseStrAux [] cs4 with
                 | none => none
                 | some (body, cs5) => some (JsonFieldVal.str (String.mk body), cs5)
               | 'n' :: cs4 =>
                 match dropLit ['u', 'l', 'l'] cs4 with
                 | none => none
                 | some cs5 => some (JsonFieldVal.null, cs5)
               | vs =>
                 match skipJson (vs.length + 1) SkipMode.value vs with
                 | none => none
                 | some cs5 => some (JsonFieldVal.other, cs5)) with
            | none => none
            | some (v, cs5) =>
              match skipWs cs5 with
              | ',' :: cs6 =>
                match parseTopMembers fuel (skipWs cs6) false with
                | none => none
                | some (ms, rest) => some ((String.mk nm, v) :: ms, rest)
              | cc :: cs6 =>
                if cc = '\x7d' then some ([(String.mk nm, v)], cs6) else none
              | [] => none
          | _ => none
      else if first = true ∧ c = '\x7d' then some ([], cs1)
      else none

/-- ASCII lowercase; `encoding/json` matches object member names to the
field JSON tags case-insensitively. -/
def asciiLower (c : Char) : Char :=
  if 65 ≤ c.toNat ∧ c.toNat ≤ 90 then Char.ofNat (c.toNat + 32) else c

/-- Case-insensitive member-name match against a field JSON tag. -/
def nameMatches (n tag : String) : Bool :=
  n.data.map asciiLower == tag.data.map asciiLower

/-- Apply one decoded object member to the record being populated, as
`json.Unmarshal` does: a string value sets the matched field, `null`
leaves it unchanged, any other value is a type error that is recorded
in the error flag while decoding continues; unknown names are ignored;
later duplicates overwrite earlier ones. -/
def applyMember (acc : StudentDoc × Bool) (m : String × JsonFieldVal) : StudentDoc × Bool :=
  if nameMatches m.1 "docStatus" then
    match m.2 with
    | JsonFieldVal.str v => (⟨v, acc.1.owner⟩, acc.2)
    | JsonFieldVal.null => acc
    | JsonFieldVal.other => (acc.1, true)
  else if nameMatches m.1 "owner" then
    match m.2 with
    | JsonFieldVal.str v => (⟨acc.1.docStatus, v⟩, acc.2)
    | JsonFieldVal.null => acc
    | JsonFieldVal.other => (acc.1, true)
  else acc

/-- Models `json.Unmarshal` of ledger bytes into a zero-initialized
`StudentDoc`, returning the record as populated by the decode attempt
together with an error flag; the mutate handlers ignore the error and
use the record as is.  Faithful to Go `encoding/json` for this struct
target: the whole document is validated before any field is populated,
so syntactically invalid input — including the empty bytes of an absent
key — and valid non-object documents leave the record zero with an
error; object member names match the field tags case-insensitively and
later duplicates overwrite; a string member value sets the field, a
`null` leaves it unchanged, and any other value records a type error
while decoding continues with the remaining members.  Inside string
bodies and numbers the model is slightly more permissive than the Go
scanner (raw control characters, some malformed numbers), which can
only move an input from the error case to the decoded case, never the
reverse. -/
def jsonUnmarshalStudentDoc (s : String) : StudentDoc × Bool :=
  match skipWs s.data with
  | [] => (⟨"", ""⟩, true)
  | c :: cs =>
    if c = '\x7b' then
      match parseTopMembers (s.data.length + 1) (skipWs cs) true with
      | none => (⟨"", ""⟩, true)
      | some (ms, rest) =>
        if skipWs rest = [] then ms.foldl applyMember (⟨"", ""⟩, false)
        else (⟨"", ""⟩, true)
    else (⟨"", ""⟩, true)

/-- A chaincode response (`sc.Response`): a success carrying an optional
byte payload (`shim.Success`, `nil` payload modeled as `none`) or an
error carrying a message (`shim.Error`). -/
inductive Response where
  | success (payload : Option String)
  | error (message : String)
deriving DecidableEq, Repr

/-- Byte-wise (here codepoint-wise) strict lexicographic order on
character lists, the order in which the ledger range scan enumerates
keys. -/
def lexLtChars : List Char → List Char → Bool
  | [], [] => false
  | [], _ :: _ => true
  | _ :: _, [] => false
  | a :: as, b :: bs => if a < b then true else if b < a then false else lexLtChars as bs

/-- Strict lexicographic order on ledger keys. -/
def keyLt (a b : String) : Bool := lexLtChars a.data b.data

/-- Reflexive lexicographic order on ledger keys. -/
def keyLe (a b : String) : Bool := ! keyLt b a

/-- `GetState`: look the key up in the ledger key-value state,
returning `none` when the key is absent (Fabric returns nil bytes and a
nil error for an absent key). -/
def getState (st : List (String × String)) (k : String) : Option String :=
  (st.find? (fun p => p.1 = k)).map (·.2)

/-- `PutState`: bind the key to the value, replacing any previous
binding. -/
def putState (st : List (String × String)) (k v : String) : List (String × String) :=
  (k, v) :: st.filter (fun p => p.1 ≠ k)

/-- Insert one key-value pair into a key-sorted list. -/
def insertSorted (p : String × String) : List (String × String) → List (String × String)
  | [] => [p]
  | q :: qs => if keyLe p.1 q.1 then p :: q :: qs else q :: insertSorted p qs

/-- Sort ledger entries by key (insertion sort); the ledger range scan
yields entries in ascending key order. -/
def sortByKey (l : List (String × String)) : List (String × String) :=
  l.foldr insertSorted []

/-- `GetStateByRange`: all entries with `startKey ≤ key < endKey`, in
ascending key order. -/
def getStateByRange (st : List (String × String)) (startKey endKey : String) :
    List (String × String) :=
  sortByKey (st.filter (fun p => keyLe startKey p.1 && keyLt p.1 endKey))

/-- One entry yielded by the host history iterator
(`GetHistoryForKey`): transaction id, stored value, timestamp
(seconds/nanos) and the tombstone flag. -/
structure KeyModification where
  txId : String
  value : String
  timestampSec : Int
  timestampNanos : Int
  isDelete : Bool
deriving DecidableEq, Repr

/-- The chaincode stub: the ledger key-value state, the host history
oracle for each key, and the host timestamp formatter (modeling
`time.Unix(sec, nanos).String()`, which this development treats as an
arbitrary function of seconds and nanos). -/
structure Stub where
  state : List (String × String)
  history : String → List KeyModification
  timeFmt : Int → Int → String

/-- The body of the buffer-building loops of `queryAllStudentDocs` and
`getHistoryForStudentDoc`: emit each member JSON, preceded by a comma
whenever a member has already been written. -/
def jsonArrayItems (f : α → String) : List α → Bool → String
  | [], _ => ""
  | x :: xs, written => (if written then "," else "") ++ f x ++ jsonArrayItems f xs true

/-- Hand-built JSON array, exactly as the Go loops assemble it:
`"["`, then the members with separating commas, then `"]"`. -/
def buildJsonArray (f : α → String) (l : List α) : String :=
  "[" ++ jsonArrayItems f l false ++ "]"

/-- The member JSON written by `queryAllStudentDocs` for one range-scan
result: `\x7b"Key":"…", "Record":…\x7d` with the raw stored bytes spliced in
as the record. -/
def rangeEntryJson (p : String × String) : String :=
  "\x7b\"Key\":\"" ++ p.1 ++ "\", \"Record\":" ++ p.2 ++ "\x7d"

/-- The member JSON written by `getHistoryForStudentDoc` for one history
entry: `Value` is `null` for a delete and the stored bytes verbatim
otherwise, and `IsDelete` is the tombstone flag formatted by
`strconv.FormatBool` (quoted). -/
def histEntryJson (fmt : Int → Int → String) (e : KeyModification) : String :=
  "\x7b\"TxId\":\"" ++ e.txId ++ "\", \"Value\":" ++
    (if e.isDelete then "null" else e.value) ++
    ", \"Timestamp\":\"" ++ fmt e.timestampSec e.timestampNanos ++
    "\", \"IsDelete\":\"" ++ (if e.isDelete then "true" else "false") ++ "\"\x7d"

/-- The `Init` method: a no-op returning `shim.Success(nil)`. -/
def Init (stub : Stub) : Response × Stub :=
  (Response.success none, stub)

/-- Handler `queryStudentDoc`: expects exactly one argument (the key)
and returns the raw stored bytes as a success payload. -/
def queryStudentDoc (stub : Stub) (args : List String) : Response × Stub :=
  if args.length ≠ 1 then (Response.error "Incorrect number of arguments. Expecting 1", stub)
  else (Response.success (getState stub.state (args.getD 0 "")), stub)

/-- The nine hardcoded seed records written by `initLedger`. -/
def seedDocs : List StudentDoc :=
  [⟨"scanned", "Tomoko"⟩,
   ⟨"transmitted responses", "Jack"⟩,
   ⟨"received responses", "John"⟩,
   ⟨"machine scored", "Mark"⟩,
   ⟨"human scored", "Tim"⟩,
   ⟨"scores exported", "Jane"⟩,
   ⟨"transmitted scores", "Peter"⟩,
   ⟨"received scores", "Sid"⟩,
   ⟨"scores reported", "Mesut"⟩]

/-- Handler `initLedger`: writes the nine seed records under keys
`"StudentDoc0"` … `"StudentDoc8"` and returns success. -/
def initLedger (stub : Stub) : Response × Stub :=
  (Response.success none,
   { stub with
      state := (seedDocs.enum).foldl
        (fun st p => putState st ("StudentDoc" ++ toString p.1) (marshalStudentDoc p.2))
        stub.state })

/-- Handler `createStudentDoc`: expects key, status, owner; marshals a
new record and writes it at the key. -/
def createStudentDoc (stub : Stub) (args : List String) : Response × Stub :=
  if args.length ≠ 3 then (Response.error "Incorrect number of arguments. Expecting 3", stub)
  else
    let studentDoc : StudentDoc := ⟨args.getD 1 "", args.getD 2 ""⟩
    (Response.success none,
     { stub with state := putState stub.state (args.getD 0 "") (marshalStudentDoc studentDoc) })

/-- Handler `queryAllStudentDocs`: scans keys in the fixed range
`"StudentDoc0"` to `"StudentDoc999"` and assembles the results into a
hand-built JSON array. -/
def queryAllStudentDocs (stub : Stub) : Response × Stub :=
  (Response.success
     (some (buildJsonArray rangeEntryJson (getStateByRange stub.state "StudentDoc0" "StudentDoc999"))),
   stub)

/-- Handler `changeStudentDocOwner`: expects key and new owner; reads
the stored bytes, unmarshals them ignoring any decode error (the record
is used exactly as the decode attempt left it, zero-initialized fields
included), overwrites the owner field, and writes the record back. -/
def changeStudentDocOwner (stub : Stub) (args : List String) : Response × Stub :=
  if args.length ≠ 2 then (Response.error "Incorrect number of arguments. Expecting 2", stub)
  else
    let bytes := (getState stub.state (args.getD 0 "")).getD ""
    let d0 := (jsonUnmarshalStudentDoc bytes).1
    let d1 := { d0 with owner := args.getD 1 "" }
    (Response.success none,
     { stub with state := putState stub.state (args.getD 0 "") (marshalStudentDoc d1) })

/-- Handler `changeStudentDocStatus`: expects key, new owner, new
status; reads the stored bytes, unmarshals them ignoring any decode
error (the record is used exactly as the decode attempt left it),
overwrites both the owner and the status field, and writes the record
back. -/
def changeStudentDocStatus (stub : Stub) (args : List String) : Response × Stub :=
  if args.length ≠ 3 then (Response.error "Incorrect number of arguments. Expecting 3", stub)
  else
    let bytes := (getState stub.state (args.getD 0 "")).getD ""
    let d0 := (jsonUnmarshalStudentDoc bytes).1
    let d1 := { d0 with owner := args.getD 1 "", docStatus := args.getD 2 "" }
    (Response.success none,
     { stub with state := putState stub.state (args.getD 0 "") (marshalStudentDoc d1) })

/-- Handler `getHistoryForStudentDoc`: rejects only a *missing* first
argument (`len(args) < 1` in the source); scans the key history and
assembles a hand-built JSON array of its entries. -/
def getHistoryForStudentDoc (stub : Stub) (args : List String) : Response × Stub :=
  if args.length < 1 then (Response.error "Incorrect number of arguments. Expecting 1", stub)
  else
    (Response.success
       (some (buildJsonArray (histEntryJson stub.timeFmt) (stub.history (args.getD 0 "")))),
     stub)

/-- The `Invoke` dispatcher: routes the function name to the matching
handler by exact string comparison; an unmatched name yields an error
response embedding the name. -/
def Invoke (stub : Stub) (function : String) (args : List String) : Response × Stub :=
  if function = "queryStudentDoc" then queryStudentDoc stub args
  else if function = "initLedger" then initLedger stub
  else if function = "createStudentDoc" then createStudentDoc stub args
  else if function = "queryAllStudentDocs" then queryAllStudentDocs stub
  else if function = "changeStudentDocOwner" then changeStudentDocOwner stub args
  else if function = "changeStudentDocStatus" then changeStudentDocStatus stub args
  else if function = "getHistoryForStudentDoc" then getHistoryForStudentDoc stub args
  else (Response.error (function ++ ": Invalid Smart Contract function name."), stub)

/-- A concrete stub with empty ledger state, an empty history for every
key, and a constant timestamp formatter; used to evaluate the handlers
on concrete inputs. -/
def stub0 : Stub :=
  { state := [], history := fun _ => [], timeFmt := fun _ _ => "" }

/-- A concrete stub holding one decodable record, used to instantiate the
read-modify-write theorems. -/
def stubW : Stub :=
  { state := [("StudentDoc0", marshalStudentDoc ⟨"scanned", "Tomoko"⟩)],
    history := fun _ => [], timeFmt := fun _ _ => "" }

/-- A concrete stub whose stored bytes for key `k` are a valid JSON
object with a string `docStatus` and a numeric `owner`: `json.Unmarshal`
populates `docStatus` and then reports a type error on `owner`. -/
def stub6 : Stub :=
  { state := [("k", "\x7b\"docStatus\":\"B\",\"owner\":5\x7d")],
    history := fun _ => [], timeFmt := fun _ _ => "" }

/-- Comma-separated join of a list of strings. -/
def commaJoin : List String → String
  | [] => ""
  | [x] => x
  | x :: y :: xs => x ++ "," ++ commaJoin (y :: xs)


/-! ### Lemmas about the JSON string encoding and decoding -/

theorem parseStrAux_closeQuote (acc rest : List Char) :
    parseStrAux acc ('"' :: rest) = some (acc.reverse, rest) := by
  rw [parseStrAux.eq_def]
  rfl

theorem parseStrAux_plain (acc : List Char) (c : Char) (rest : List Char)
    (h1 : c ≠ '"') (h2 : c ≠ '\\') :
    parseStrAux acc (c :: rest) = parseStrAux (c :: acc) rest := by
  rw [parseStrAux.eq_def]
  simp [h1, h2]

theorem parseStrAux_escQuote (acc rest : List Char) :
    parseStrAux acc ('\\' :: '"' :: rest) = parseStrAux ('"' :: acc) rest := by
  rw [parseStrAux.eq_def]
  rfl


theorem parseStrAux_escBackslash (acc rest : List Char) :
    parseStrAux acc ('\\' :: '\\' :: rest) = parseStrAux ('\\' :: acc) rest := by
  rw [parseStrAux.eq_def]
  rfl


theorem parseStrAux_escN (acc rest : List Char) :
    parseStrAux acc ('\\' :: 'n' :: rest) = parseStrAux ('\n' :: acc) rest := by
  rw [parseStrAux.eq_def]
  rfl


theorem parseStrAux_escR (acc rest : List Char) :
    parseStrAux acc ('\\' :: 'r' :: rest) = parseStrAux ('\r' :: acc) rest := by
  rw [parseStrAux.eq_def]
  rfl


theorem parseStrAux_escT (acc rest : List Char) :
    parseStrAux acc ('\\' :: 't' :: rest) = parseStrAux ('\t' :: acc) rest := by
  rw [parseStrAux.eq_def]
  rfl


theorem parseStrAux_unicode (acc : List Char) (h1 h2 h3 h4 : Char) (a b c d : Nat)
    (rest : List Char) (e1 : hexVal h1 = some a) (e2 : hexVal h2 = some b)
    (e3 : hexVal h3 = some c) (e4 : hexVal h4 = some d) :
    parseStrAux acc ('\\' :: 'u' :: h1 :: h2 :: h3 :: h4 :: rest) =
      parseStrAux (Char.ofNat (((a * 16 + b) * 16 + c) * 16 + d) :: acc) rest := by
  rw [parseStrAux.eq_def]
  simp [e1, e2, e3, e4]

theorem hexVal_hexDigitChar (n : Nat) (h : n < 16) : hexVal (hexDigitChar n) = some n := by
  interval_cases n <;> decide

theorem parseStrAux_escapeChars (cs : List Char) : ∀ acc rest : List Char,
    parseStrAux acc (escapeChars cs ++ '"' :: rest) = some (acc.reverse ++ cs, rest) := by
  induction cs with
  | nil =>
    intro acc rest
    simp [escapeChars, parseStrAux_closeQuote]
  | cons c cs ih =>
    intro acc rest
    have hstep : escapeChars (c :: cs) ++ '"' :: rest =
        encodeChar c ++ (escapeChars cs ++ '"' :: rest) := by
      simp [escapeChars, List.append_assoc]
    rw [hstep]
    by_cases b1 : c = '"'
    · subst b1
      rw [show encodeChar '"' = ['\\', '"'] from rfl]
      rw [show (['\\', '"'] : List Char) ++ (escapeChars cs ++ '"' :: rest) =
        '\\' :: '"' :: (escapeChars cs ++ '"' :: rest) from rfl]
      rw [parseStrAux_escQuote, ih]
      simp
    · by_cases b2 : c = '\\'
      · subst b2
        rw [show encodeChar '\\' = ['\\', '\\'] from rfl]
        rw [show (['\\', '\\'] : List Char) ++ (escapeChars cs ++ '"' :: rest) =
          '\\' :: '\\' :: (escapeChars cs ++ '"' :: rest) from rfl]
        rw [parseStrAux_escBackslash, ih]
        simp
      · by_cases b3 : c = '\n'
        · subst b3
          rw [show encodeChar '\n' = ['\\', 'n'] from rfl]
          rw [show (['\\', 'n'] : List Char) ++ (escapeChars cs ++ '"' :: rest) =
            '\\' :: 'n' :: (escapeChars cs ++ '"' :: rest) from rfl]
          rw [parseStrAux_escN, ih]
          simp
        · by_cases b4 : c = '\r'
          · subst b4
            rw [show encodeChar '\r' = ['\\', 'r'] from rfl]
            rw [show (['\\', 'r'] : List Char) ++ (escapeChars cs ++ '"' :: rest) =
              '\\' :: 'r' :: (escapeChars cs ++ '"' :: rest) from rfl]
            rw [parseStrAux_escR, ih]
            simp
          · by_cases b5 : c = '\t'
            · subst b5
              rw [show encodeChar '\t' = ['\\', 't'] from rfl]
              rw [show (['\\', 't'] : List Char) ++ (escapeChars cs ++ '"' :: rest) =
                '\\' :: 't' :: (escapeChars cs ++ '"' :: rest) from rfl]
              rw [parseStrAux_escT, ih]
              simp
            · by_cases b6 : c = '<'
              · subst b6
                rw [show encodeChar '<' = ['\\', 'u', '0', '0', '3', 'c'] from rfl]
                rw [show (['\\', 'u', '0', '0', '3', 'c'] : List Char) ++
                    (escapeChars cs ++ '"' :: rest) =
                  '\\' :: 'u' :: '0' :: '0' :: '3' :: 'c' :: (escapeChars cs ++ '"' :: rest)
                  from rfl]
                rw [parseStrAux_unicode _ _ _ _ _ 0 0 3 12 _ (by decide) (by decide)
                  (by decide) (by decide), ih]
                simp
              · by_cases b7 : c = '>'
                · subst b7
                  rw [show encodeChar '>' = ['\\', 'u', '0', '0', '3', 'e'] from rfl]
                  rw [show (['\\', 'u', '0', '0', '3', 'e'] : List Char) ++
                      (escapeChars cs ++ '"' :: rest) =
                    '\\' :: 'u' :: '0' :: '0' :: '3' :: 'e' ::
                      (escapeChars cs ++ '"' :: rest) from rfl]
                  rw [parseStrAux_unicode _ _ _ _ _ 0 0 3 14 _ (by decide) (by decide)
                    (by decide) (by decide), ih]
                  simp
                · by_cases b8 : c = '&'
                  · subst b8
                    rw [show encodeChar '&' = ['\\', 'u', '0', '0', '2', '6'] from rfl]
                    rw [show (['\\', 'u', '0', '0', '2', '6'] : List Char) ++
                        (escapeChars cs ++ '"' :: rest) =
                      '\\' :: 'u' :: '0' :: '0' :: '2' :: '6' ::
                        (escapeChars cs ++ '"' :: rest) from rfl]
                    rw [parseStrAux_unicode _ _ _ _ _ 0 0 2 6 _ (by decide) (by decide)
                      (by decide) (by decide), ih]
                    simp
                  · by_cases b9 : c.toNat < 32
                    · have henc : encodeChar c =
                          ['\\', 'u', '0', '0', hexDigitChar (c.toNat / 16),
                            hexDigitChar (c.toNat % 16)] := by
                        simp [encodeChar, b1, b2, b3, b4, b5, b6, b7, b8, b9]
                      rw [henc]
                      rw [show (['\\', 'u', '0', '0', hexDigitChar (c.toNat / 16),
                          hexDigitChar (c.toNat % 16)] : List Char) ++
                          (escapeChars cs ++ '"' :: rest) =
                        '\\' :: 'u' :: '0' :: '0' :: hexDigitChar (c.toNat / 16) ::
                          hexDigitChar (c.toNat % 16) :: (escapeChars cs ++ '"' :: rest)
                        from rfl]
                      rw [parseStrAux_unicode _ _ _ _ _ 0 0 (c.toNat / 16) (c.toNat % 16) _
                        (by decide) (by decide)
                        (hexVal_hexDigitChar _ (by omega))
                        (hexVal_hexDigitChar _ (Nat.mod_lt _ (by norm_num)))]
                      have hidx : ((0 * 16 + 0) * 16 + c.toNat / 16) * 16 + c.toNat % 16 =
                          c.toNat := by omega
                      rw [hidx, Char.ofNat_toNat, ih]
                      simp
                    · by_cases b10 : c.toNat = 0x2028
                      · have henc : encodeChar c = ['\\', 'u', '2', '0', '2', '8'] := by
                          simp [encodeChar, b1, b2, b3, b4, b5, b6, b7, b8, b9, b10]
                        have hc : c = Char.ofNat 0x2028 := by
                          rw [← b10, Char.ofNat_toNat]
                        rw [henc]
                        rw [show (['\\', 'u', '2', '0', '2', '8'] : List Char) ++
                            (escapeChars cs ++ '"' :: rest) =
                          '\\' :: 'u' :: '2' :: '0' :: '2' :: '8' ::
                            (escapeChars cs ++ '"' :: rest) from rfl]
                        rw [parseStrAux_unicode _ _ _ _ _ 2 0 2 8 _ (by decide) (by decide)
                          (by decide) (by decide), ih]
                        rw [show (((2 * 16 + 0) * 16 + 2) * 16 + 8 : Nat) = 0x2028 by norm_num]
                        rw [← hc]
                        simp
                      · by_cases b11 : c.toNat = 0x2029
                        · have henc : encodeChar c = ['\\', 'u', '2', '0', '2', '9'] := by
                            simp [encodeChar, b1, b2, b3, b4, b5, b6, b7, b8, b9, b10, b11]
                          have hc : c = Char.ofNat 0x2029 := by
                            rw [← b11, Char.ofNat_toNat]
                          rw [henc]
                          rw [show (['\\', 'u', '2', '0', '2', '9'] : List Char) ++
                              (escapeChars cs ++ '"' :: rest) =
                            '\\' :: 'u' :: '2' :: '0' :: '2' :: '9' ::
                              (escapeChars cs ++ '"' :: rest) from rfl]
                          rw [parseStrAux_unicode _ _ _ _ _ 2 0 2 9 _ (by decide) (by decide)
                            (by decide) (by decide), ih]
                          rw [show (((2 * 16 + 0) * 16 + 2) * 16 + 9 : Nat) = 0x2029
                            by norm_num]
                          rw [← hc]
                          simp
                        · have henc : encodeChar c = [c] := by
                            simp [encodeChar, b1, b2, b3, b4, b5, b6, b7, b8, b9, b10, b11]
                          rw [henc]
                          rw [show ([c] : List Char) ++ (escapeChars cs ++ '"' :: rest) =
                            c :: (escapeChars cs ++ '"' :: rest) from rfl]
                          rw [parseStrAux_plain _ _ _ b1 b2, ih]
                          simp

theorem dropLit_append (ls rest : List Char) : dropLit ls (ls ++ rest) = some rest := by
  induction ls with
  | nil => rfl
  | cons l ls ih => simp [dropLit, ih]

theorem unmarshal_marshal (d : StudentDoc) :
    unmarshalStudentDoc (marshalStudentDoc d) = some d := by
  obtain ⟨ds, ow⟩ := d
  have h1 : (marshalStudentDoc ⟨ds, ow⟩).data =
      ("\x7b\"docStatus\":\"" : String).data ++
        (escapeChars ds.data ++ '"' ::
          ((",\"owner\":\"" : String).data ++
            (escapeChars ow.data ++ '"' :: ("\x7d" : String).data))) := by
    show ("\x7b\"docStatus\":\"" ++ goEscape ds ++ "\",\"owner\":\"" ++
      goEscape ow ++ "\"\x7d").data = _
    simp [String.data_append, goEscape, List.append_assoc]
  simp only [unmarshalStudentDoc, h1, dropLit_append, parseStrAux_escapeChars,
    List.reverse_nil, List.nil_append]
  rfl

theorem dropLit_eq_append (ls : List Char) :
    ∀ cs r, dropLit ls cs = some r → cs = ls ++ r := by
  induction ls with
  | nil =>
    intro cs r h
    simpa [dropLit] using h
  | cons l ls ih =>
    intro cs r h
    cases cs with
    | nil => simp [dropLit] at h
    | cons c cs2 =>
      by_cases hc : c = l
      · simp only [dropLit, hc, if_pos] at h
        simp [hc, ih cs2 r h]
      · simp [dropLit, hc] at h

theorem unmarshal_shape (s : String) (d : StudentDoc) (h : unmarshalStudentDoc s = some d) :
    ∃ r1 a r3 b,
      s.data = ("\x7b\"docStatus\":\"" : String).data ++ r1 ∧
      parseStrAux [] r1 = some (a, (",\"owner\":\"" : String).data ++ r3) ∧
      parseStrAux [] r3 = some (b, ("\x7d" : String).data) ∧
      d = ⟨String.mk a, String.mk b⟩ := by
  unfold unmarshalStudentDoc at h
  split at h
  · exact absurd h (by simp)
  next r1 h1 =>
    split at h
    · exact absurd h (by simp)
    next a r2 h2 =>
      split at h
      · exact absurd h (by simp)
      next r3 h3 =>
        split at h
        · exact absurd h (by simp)
        next b r4 h4 =>
          split at h
          next h5 =>
            refine ⟨r1, a, r3, b, dropLit_eq_append _ _ _ h1, ?_, ?_, ?_⟩
            · rw [h2, dropLit_eq_append _ _ _ h3]
            · rw [h4, h5]
            · exact (Option.some_inj.mp h).symm
          · exact absurd h (by simp)

theorem parseStrAux_name_docStatus (X : List Char) :
    parseStrAux [] ('d' :: 'o' :: 'c' :: 'S' :: 't' :: 'a' :: 't' :: 'u' :: 's' :: '"' :: X) =
      some (("docStatus" : String).data, X) := by
  have h := parseStrAux_escapeChars ("docStatus" : String).data [] X
  rw [show escapeChars ("docStatus" : String).data ++ '"' :: X =
    'd' :: 'o' :: 'c' :: 'S' :: 't' :: 'a' :: 't' :: 'u' :: 's' :: '"' :: X from rfl] at h
  simpa using h

theorem parseStrAux_name_owner (X : List Char) :
    parseStrAux [] ('o' :: 'w' :: 'n' :: 'e' :: 'r' :: '"' :: X) =
      some (("owner" : String).data, X) := by
  have h := parseStrAux_escapeChars ("owner" : String).data [] X
  rw [show escapeChars ("owner" : String).data ++ '"' :: X =
    'o' :: 'w' :: 'n' :: 'e' :: 'r' :: '"' :: X from rfl] at h
  simpa using h

theorem parseTopMembers_owner (k : Nat) (r3 b : List Char)
    (hp2 : parseStrAux [] r3 = some (b, ("\x7d" : String).data)) :
    parseTopMembers (k + 1) ('"' :: 'o' :: 'w' :: 'n' :: 'e' :: 'r' :: '"' :: ':' :: '"' :: r3)
      false = some ([("owner", JsonFieldVal.str (String.mk b))], []) := by
  rw [parseTopMembers.eq_def]
  simp [parseStrAux_name_owner, hp2, skipWs, isWs]

theorem parseTopMembers_canonical (k : Nat) (r1 a r3 b : List Char)
    (hp1 : parseStrAux [] r1 = some (a, (",\"owner\":\"" : String).data ++ r3))
    (hp2 : parseStrAux [] r3 = some (b, ("\x7d" : String).data)) :
    parseTopMembers (k + 2)
      ('"' :: 'd' :: 'o' :: 'c' :: 'S' :: 't' :: 'a' :: 't' :: 'u' :: 's' :: '"' :: ':' :: '"' :: r1)
      true =
      some ([("docStatus", JsonFieldVal.str (String.mk a)),
             ("owner", JsonFieldVal.str (String.mk b))], []) := by
  have hp1b : parseStrAux [] r1 =
      some (a, ',' :: '"' :: 'o' :: 'w' :: 'n' :: 'e' :: 'r' :: '"' :: ':' :: '"' :: r3) := by
    rw [hp1]
    rfl
  rw [show k + 2 = (k + 1) + 1 from rfl]
  rw [parseTopMembers.eq_def]
  simp [parseStrAux_name_docStatus, hp1b, skipWs, isWs,
    parseTopMembers_owner k r3 b hp2]

theorem jsonUnmarshal_of_unmarshal (s : String) (d : StudentDoc)
    (h : unmarshalStudentDoc s = some d) :
    jsonUnmarshalStudentDoc s = (d, false) := by
  obtain ⟨r1, a, r3, b, hs, hp1, hp2, hd⟩ := unmarshal_shape s d h
  subst hd
  have hs2 : s.data = '\x7b' ::
      '"' :: 'd' :: 'o' :: 'c' :: 'S' :: 't' :: 'a' :: 't' :: 'u' :: 's' :: '"' :: ':' :: '"' :: r1 := by
    rw [hs]
    rfl
  unfold jsonUnmarshalStudentDoc
  rw [hs2]
  rw [show ('\x7b' ::
      '"' :: 'd' :: 'o' :: 'c' :: 'S' :: 't' :: 'a' :: 't' :: 'u' :: 's' :: '"' :: ':' :: '"' ::
        r1).length + 1 = (r1.length + 13) + 2 from by simp only [List.length_cons]]
  rw [show skipWs ('\x7b' ::
      '"' :: 'd' :: 'o' :: 'c' :: 'S' :: 't' :: 'a' :: 't' :: 'u' :: 's' :: '"' :: ':' :: '"' ::
        r1) =
    '\x7b' ::
      '"' :: 'd' :: 'o' :: 'c' :: 'S' :: 't' :: 'a' :: 't' :: 'u' :: 's' :: '"' :: ':' :: '"' :: r1
    from rfl]
  simp only [skipWs, isWs]
  simp [parseTopMembers_canonical (r1.length + 13) r1 a r3 b hp1 hp2, applyMember, nameMatches,
    skipWs, isWs]

/-! ### Lemmas about the ledger key-value state -/

theorem getState_putState_same (st : List (String × String)) (k v : String) :
    getState (putState st k v) k = some v := by
  simp [getState, putState, List.find?_cons]

theorem find?_filter_ne (st : List (String × String)) (k q : String) (h : q ≠ k) :
    (st.filter (fun p => p.1 ≠ k)).find? (fun p => p.1 = q) =
      st.find? (fun p => p.1 = q) := by
  rw [List.find?_filter]
  congr 1
  funext a
  by_cases ha : a.1 = q
  · have hak : a.1 ≠ k := by
      rw [ha]
      exact h
    simp [ha, hak]
    exact h
  · simp [ha]

theorem getState_putState_ne (st : List (String × String)) (k v q : String) (h : q ≠ k) :
    getState (putState st k v) q = getState st q := by
  have hk : ((k, v).1 = q) = False := by
    simp
    exact fun e => h e.symm
  unfold getState putState
  rw [List.find?_cons]
  simp only [hk, decide_False]
  rw [find?_filter_ne st k q h]

theorem filter_subset_nil (st : List (String × String)) (p q : String × String → Bool)
    (h : st.filter p = []) : (st.filter q).filter p = [] := by
  rw [List.filter_filter]
  rw [List.filter_eq_nil_iff] at h ⊢
  intro a ha
  simp [h a ha]

/-! ### The hand-built JSON arrays list their members in order -/

theorem jsonArrayItems_eq_commaJoin (f : α → String) :
    ∀ l : List α, jsonArrayItems f l false = commaJoin (l.map f) ∧
      jsonArrayItems f l true = (if l.isEmpty then "" else ",") ++ commaJoin (l.map f) := by
  intro l
  induction l with
  | nil => constructor <;> rfl
  | cons x xs ih =>
    obtain ⟨ih1, ih2⟩ := ih
    cases xs with
    | nil =>
      constructor
      · show "" ++ f x ++ jsonArrayItems f [] true = f x
        simp [jsonArrayItems]
      · show "," ++ f x ++ jsonArrayItems f [] true = "," ++ f x
        simp [jsonArrayItems]
    | cons y ys =>
      constructor
      · show "" ++ f x ++ jsonArrayItems f (y :: ys) true = commaJoin (f x :: f y :: List.map f ys)
        rw [ih2]
        show "" ++ f x ++ ("," ++ commaJoin (List.map f (y :: ys))) =
          f x ++ "," ++ commaJoin (f y :: List.map f ys)
        simp [String.append_assoc]
      · show "," ++ f x ++ jsonArrayItems f (y :: ys) true =
          "," ++ commaJoin (f x :: f y :: List.map f ys)
        rw [ih2]
        show "," ++ f x ++ ("," ++ commaJoin (List.map f (y :: ys))) =
          "," ++ (f x ++ "," ++ commaJoin (f y :: List.map f ys))
        simp [String.append_assoc]

theorem buildJsonArray_eq (f : α → String) (l : List α) :
    buildJsonArray f l = "[" ++ commaJoin (l.map f) ++ "]" := by
  rw [buildJsonArray, (jsonArrayItems_eq_commaJoin f l).1]

/-! ### The claims -/

/-- Claim C1, counterexample: `getHistoryForStudentDoc` checks `len(args) < 1`,
not `!= 1`, so invoking it with two arguments (wrong arity) returns a success
response, contradicting the claim that every wrong-arity invocation fails. -/
theorem claim_C1_counterexample :
    (["k", "x"] : List String).length ≠ 1 ∧
    (getHistoryForStudentDoc stub0 ["k", "x"]).1 = Response.success (some "[]") := by
  constructor
  · decide
  · rfl

/-- Claim C1, amended: the four handlers with strict arity checks
(`queryStudentDoc`, `createStudentDoc`, `changeStudentDocOwner`,
`changeStudentDocStatus`) fail on every argument list of the wrong length;
`getHistoryForStudentDoc` fails exactly when given fewer than one argument and
returns a success response whenever at least one argument is supplied. -/
theorem claim_C1 (stub : Stub) (args : List String) :
    (args.length ≠ 1 →
      (queryStudentDoc stub args).1 = Response.error "Incorrect number of arguments. Expecting 1") ∧
    (args.length ≠ 3 →
      (createStudentDoc stub args).1 = Response.error "Incorrect number of arguments. Expecting 3") ∧
    (args.length ≠ 2 →
      (changeStudentDocOwner stub args).1 = Response.error "Incorrect number of arguments. Expecting 2") ∧
    (args.length ≠ 3 →
      (changeStudentDocStatus stub args).1 = Response.error "Incorrect number of arguments. Expecting 3") ∧
    (args.length < 1 →
      (getHistoryForStudentDoc stub args).1 = Response.error "Incorrect number of arguments. Expecting 1") ∧
    (1 ≤ args.length →
      (getHistoryForStudentDoc stub args).1 =
        Response.success (some (buildJsonArray (histEntryJson stub.timeFmt)
          (stub.history (args.getD 0 ""))))) := by
  refine ⟨?_, ?_, ?_, ?_, ?_, ?_⟩ <;> intro h
  · simp [queryStudentDoc, h]
  · simp [createStudentDoc, h]
  · simp [changeStudentDocOwner, h]
  · simp [changeStudentDocStatus, h]
  · simp [getHistoryForStudentDoc, h]
  · have hn : ¬ args.length < 1 := by omega
    simp [getHistoryForStudentDoc, hn]

/-- Claim C1, witness: concrete wrong-arity failure for `queryStudentDoc`
and concrete extra-argument success for `getHistoryForStudentDoc`. -/
theorem claim_C1_witness :
    (queryStudentDoc stub0 []).1 = Response.error "Incorrect number of arguments. Expecting 1" ∧
    (getHistoryForStudentDoc stub0 ["k", "x"]).1 =
      Response.success (some (buildJsonArray (histEntryJson stub0.timeFmt) (stub0.history "k"))) :=
  ⟨(claim_C1 stub0 []).1 (by decide), (claim_C1 stub0 ["k", "x"]).2.2.2.2.2 (by decide)⟩

/-- Claim C2: after a successful `createStudentDoc(key, status, owner)`, a
subsequent `queryStudentDoc(key)` returns a success whose payload decodes to a
record with exactly that `docStatus` and that `owner`. -/
theorem claim_C2 (stub : Stub) (key status owner : String) :
    (createStudentDoc stub [key, status, owner]).1 = Response.success none ∧
    (queryStudentDoc (createStudentDoc stub [key, status, owner]).2 [key]).1 =
      Response.success (some (marshalStudentDoc ⟨status, owner⟩)) ∧
    unmarshalStudentDoc (marshalStudentDoc ⟨status, owner⟩) = some ⟨status, owner⟩ := by
  refine ⟨?_, ?_, unmarshal_marshal _⟩
  · simp [createStudentDoc]
  · simp [createStudentDoc, queryStudentDoc, getState_putState_same]

/-- Claim C3: from a ledger with no keys in the scanned range, `initLedger`
followed by `queryAllStudentDocs` returns a success whose JSON-array payload
holds exactly the nine seed records under keys `StudentDoc0` … `StudentDoc8`
in ascending key order. -/
theorem claim_C3 (stub : Stub)
    (h : stub.state.filter
      (fun p => keyLe "StudentDoc0" p.1 && keyLt p.1 "StudentDoc999") = []) :
    (queryAllStudentDocs (initLedger stub).2).1 =
      Response.success (some (buildJsonArray rangeEntryJson
        [("StudentDoc0", marshalStudentDoc ⟨"scanned", "Tomoko"⟩),
         ("StudentDoc1", marshalStudentDoc ⟨"transmitted responses", "Jack"⟩),
         ("StudentDoc2", marshalStudentDoc ⟨"received responses", "John"⟩),
         ("StudentDoc3", marshalStudentDoc ⟨"machine scored", "Mark"⟩),
         ("StudentDoc4", marshalStudentDoc ⟨"human scored", "Tim"⟩),
         ("StudentDoc5", marshalStudentDoc ⟨"scores exported", "Jane"⟩),
         ("StudentDoc6", marshalStudentDoc ⟨"transmitted scores", "Peter"⟩),
         ("StudentDoc7", marshalStudentDoc ⟨"received scores", "Sid"⟩),
         ("StudentDoc8", marshalStudentDoc ⟨"scores reported", "Mesut"⟩)])) := by
  have hsplit : (initLedger stub).2.state =
      [("StudentDoc8", marshalStudentDoc ⟨"scores reported", "Mesut"⟩),
       ("StudentDoc7", marshalStudentDoc ⟨"received scores", "Sid"⟩),
       ("StudentDoc6", marshalStudentDoc ⟨"transmitted scores", "Peter"⟩),
       ("StudentDoc5", marshalStudentDoc ⟨"scores exported", "Jane"⟩),
       ("StudentDoc4", marshalStudentDoc ⟨"human scored", "Tim"⟩),
       ("StudentDoc3", marshalStudentDoc ⟨"machine scored", "Mark"⟩),
       ("StudentDoc2", marshalStudentDoc ⟨"received responses", "John"⟩),
       ("StudentDoc1", marshalStudentDoc ⟨"transmitted responses", "Jack"⟩),
       ("StudentDoc0", marshalStudentDoc ⟨"scanned", "Tomoko"⟩)] ++
      (((((((((stub.state.filter (fun p => p.1 ≠ "StudentDoc0")).filter
        (fun p => p.1 ≠ "StudentDoc1")).filter
        (fun p => p.1 ≠ "StudentDoc2")).filter
        (fun p => p.1 ≠ "StudentDoc3")).filter
        (fun p => p.1 ≠ "StudentDoc4")).filter
        (fun p => p.1 ≠ "StudentDoc5")).filter
        (fun p => p.1 ≠ "StudentDoc6")).filter
        (fun p => p.1 ≠ "StudentDoc7")).filter
        (fun p => p.1 ≠ "StudentDoc8")) := rfl
  have n0 := filter_subset_nil stub.state
    (fun p => keyLe "StudentDoc0" p.1 && keyLt p.1 "StudentDoc999")
    (fun p => p.1 ≠ "StudentDoc0") h
  have n1 := filter_subset_nil _
    (fun p => keyLe "StudentDoc0" p.1 && keyLt p.1 "StudentDoc999")
    (fun p => p.1 ≠ "StudentDoc1") n0
  have n2 := filter_subset_nil _
    (fun p => keyLe "StudentDoc0" p.1 && keyLt p.1 "StudentDoc999")
    (fun p => p.1 ≠ "StudentDoc2") n1
  have n3 := filter_subset_nil _
    (fun p => keyLe "StudentDoc0" p.1 && keyLt p.1 "StudentDoc999")
    (fun p => p.1 ≠ "StudentDoc3") n2
  have n4 := filter_subset_nil _
    (fun p => keyLe "StudentDoc0" p.1 && keyLt p.1 "StudentDoc999")
    (fun p => p.1 ≠ "StudentDoc4") n3
  have n5 := filter_subset_nil _
    (fun p => keyLe "StudentDoc0" p.1 && keyLt p.1 "StudentDoc999")
    (fun p => p.1 ≠ "StudentDoc5") n4
  have n6 := filter_subset_nil _
    (fun p => keyLe "StudentDoc0" p.1 && keyLt p.1 "StudentDoc999")
    (fun p => p.1 ≠ "StudentDoc6") n5
  have n7 := filter_subset_nil _
    (fun p => keyLe "StudentDoc0" p.1 && keyLt p.1 "StudentDoc999")
    (fun p => p.1 ≠ "StudentDoc7") n6
  have n8 := filter_subset_nil _
    (fun p => keyLe "StudentDoc0" p.1 && keyLt p.1 "StudentDoc999")
    (fun p => p.1 ≠ "StudentDoc8") n7
  have hrange : getStateByRange (initLedger stub).2.state "StudentDoc0" "StudentDoc999" =
      [("StudentDoc0", marshalStudentDoc ⟨"scanned", "Tomoko"⟩),
       ("StudentDoc1", marshalStudentDoc ⟨"transmitted responses", "Jack"⟩),
       ("StudentDoc2", marshalStudentDoc ⟨"received responses", "John"⟩),
       ("StudentDoc3", marshalStudentDoc ⟨"machine scored", "Mark"⟩),
       ("StudentDoc4", marshalStudentDoc ⟨"human scored", "Tim"⟩),
       ("StudentDoc5", marshalStudentDoc ⟨"scores exported", "Jane"⟩),
       ("StudentDoc6", marshalStudentDoc ⟨"transmitted scores", "Peter"⟩),
       ("StudentDoc7", marshalStudentDoc ⟨"received scores", "Sid"⟩),
       ("StudentDoc8", marshalStudentDoc ⟨"scores reported", "Mesut"⟩)] := by
    rw [getStateByRange, hsplit, List.filter_append]
    rw [n8]
    rw [show ([("StudentDoc8", marshalStudentDoc ⟨"scores reported", "Mesut"⟩),
       ("StudentDoc7", marshalStudentDoc ⟨"received scores", "Sid"⟩),
       ("StudentDoc6", marshalStudentDoc ⟨"transmitted scores", "Peter"⟩),
       ("StudentDoc5", marshalStudentDoc ⟨"scores exported", "Jane"⟩),
       ("StudentDoc4", marshalStudentDoc ⟨"human scored", "Tim"⟩),
       ("StudentDoc3", marshalStudentDoc ⟨"machine scored", "Mark"⟩),
       ("StudentDoc2", marshalStudentDoc ⟨"received responses", "John"⟩),
       ("StudentDoc1", marshalStudentDoc ⟨"transmitted responses", "Jack"⟩),
       ("StudentDoc0", marshalStudentDoc ⟨"scanned", "Tomoko"⟩)] : List (String × String)).filter
        (fun p => keyLe "StudentDoc0" p.1 && keyLt p.1 "StudentDoc999") =
      [("StudentDoc8", marshalStudentDoc ⟨"scores reported", "Mesut"⟩),
       ("StudentDoc7", marshalStudentDoc ⟨"received scores", "Sid"⟩),
       ("StudentDoc6", marshalStudentDoc ⟨"transmitted scores", "Peter"⟩),
       ("StudentDoc5", marshalStudentDoc ⟨"scores exported", "Jane"⟩),
       ("StudentDoc4", marshalStudentDoc ⟨"human scored", "Tim"⟩),
       ("StudentDoc3", marshalStudentDoc ⟨"machine scored", "Mark"⟩),
       ("StudentDoc2", marshalStudentDoc ⟨"received responses", "John"⟩),
       ("StudentDoc1", marshalStudentDoc ⟨"transmitted responses", "Jack"⟩),
       ("StudentDoc0", marshalStudentDoc ⟨"scanned", "Tomoko"⟩)] from by decide]
    rw [List.append_nil]
    decide
  simp only [queryAllStudentDocs, hrange]

/-- Claim C3, witness: the seed-then-scan result on the empty ledger. -/
theorem claim_C3_witness :
    (queryAllStudentDocs (initLedger stub0).2).1 =
      Response.success (some (buildJsonArray rangeEntryJson
        [("StudentDoc0", marshalStudentDoc ⟨"scanned", "Tomoko"⟩),
         ("StudentDoc1", marshalStudentDoc ⟨"transmitted responses", "Jack"⟩),
         ("StudentDoc2", marshalStudentDoc ⟨"received responses", "John"⟩),
         ("StudentDoc3", marshalStudentDoc ⟨"machine scored", "Mark"⟩),
         ("StudentDoc4", marshalStudentDoc ⟨"human scored", "Tim"⟩),
         ("StudentDoc5", marshalStudentDoc ⟨"scores exported", "Jane"⟩),
         ("StudentDoc6", marshalStudentDoc ⟨"transmitted scores", "Peter"⟩),
         ("StudentDoc7", marshalStudentDoc ⟨"received scores", "Sid"⟩),
         ("StudentDoc8", marshalStudentDoc ⟨"scores reported", "Mesut"⟩)])) :=
  claim_C3 stub0 (by decide)

/-- Claim C4: when the stored bytes decode to a record,
`changeStudentDocOwner(key, newOwner)` succeeds, writes back a record with the
new owner and the previously stored `docStatus`, and modifies no other key. -/
theorem claim_C4 (stub : Stub) (key newOwner bytes : String) (d : StudentDoc)
    (hget : getState stub.state key = some bytes)
    (hdec : unmarshalStudentDoc bytes = some d) :
    (changeStudentDocOwner stub [key, newOwner]).1 = Response.success none ∧
    getState (changeStudentDocOwner stub [key, newOwner]).2.state key =
      some (marshalStudentDoc ⟨d.docStatus, newOwner⟩) ∧
    ∀ k2 : String, k2 ≠ key →
      getState (changeStudentDocOwner stub [key, newOwner]).2.state k2 =
        getState stub.state k2 := by
  have hb := jsonUnmarshal_of_unmarshal bytes d hdec
  obtain ⟨ds, ow⟩ := d
  have hh : changeStudentDocOwner stub [key, newOwner] =
      (Response.success none,
       { stub with state := putState stub.state key (marshalStudentDoc ⟨ds, newOwner⟩) }) := by
    simp [changeStudentDocOwner, hget, hb]
  refine ⟨by rw [hh], ?_, ?_⟩
  · rw [hh]
    exact getState_putState_same _ _ _
  · intro k2 hk2
    rw [hh]
    exact getState_putState_ne _ _ _ _ hk2

/-- Claim C4, witness: changing the owner of the seeded `StudentDoc0` record
to `Bob` keeps `docStatus` `scanned`. -/
theorem claim_C4_witness :
    getState (changeStudentDocOwner stubW ["StudentDoc0", "Bob"]).2.state "StudentDoc0" =
      some (marshalStudentDoc ⟨"scanned", "Bob"⟩) :=
  (claim_C4 stubW "StudentDoc0" "Bob" (marshalStudentDoc ⟨"scanned", "Tomoko"⟩)
    ⟨"scanned", "Tomoko"⟩ (by decide) (by decide)).2.1

/-- Claim C5: when the stored bytes decode to a record,
`changeStudentDocStatus(key, newOwner, newStatus)` succeeds and writes back a
record whose owner is `newOwner` and whose `docStatus` is `newStatus`. -/
theorem claim_C5 (stub : Stub) (key newOwner newStatus bytes : String) (d : StudentDoc)
    (hget : getState stub.state key = some bytes)
    (hdec : unmarshalStudentDoc bytes = some d) :
    (changeStudentDocStatus stub [key, newOwner, newStatus]).1 = Response.success none ∧
    getState (changeStudentDocStatus stub [key, newOwner, newStatus]).2.state key =
      some (marshalStudentDoc ⟨newStatus, newOwner⟩) := by
  have hb := jsonUnmarshal_of_unmarshal bytes d hdec
  obtain ⟨ds, ow⟩ := d
  have hh : changeStudentDocStatus stub [key, newOwner, newStatus] =
      (Response.success none,
       { stub with state := putState stub.state key (marshalStudentDoc ⟨newStatus, newOwner⟩) }) := by
    simp [changeStudentDocStatus, hget, hb]
  refine ⟨by rw [hh], ?_⟩
  rw [hh]
  exact getState_putState_same _ _ _

/-- Claim C5, witness: changing both fields of the seeded `StudentDoc0`
record in one invocation. -/
theorem claim_C5_witness :
    getState (changeStudentDocStatus stubW ["StudentDoc0", "Bob", "graded"]).2.state
      "StudentDoc0" = some (marshalStudentDoc ⟨"graded", "Bob"⟩) :=
  (claim_C5 stubW "StudentDoc0" "Bob" "graded" (marshalStudentDoc ⟨"scanned", "Tomoko"⟩)
    ⟨"scanned", "Tomoko"⟩ (by decide) (by decide)).2

/-- Claim C6, counterexample: stored bytes that fail to decode (a type
error on `owner`) but populate `docStatus` first: the record written
back by `changeStudentDocOwner` keeps `docStatus` `B` and is not the
zero-value record the claim asserts. -/
theorem claim_C6_counterexample :
    (jsonUnmarshalStudentDoc "\x7b\"docStatus\":\"B\",\"owner\":5\x7d").2 = true ∧
    (changeStudentDocOwner stub6 ["k", "N"]).1 = Response.success none ∧
    getState (changeStudentDocOwner stub6 ["k", "N"]).2.state "k" =
      some (marshalStudentDoc ⟨"B", "N"⟩) ∧
    getState (changeStudentDocOwner stub6 ["k", "N"]).2.state "k" ≠
      some (marshalStudentDoc ⟨"", "N"⟩) := by
  refine ⟨by decide, by decide, by decide, by decide⟩

/-- Claim C6, amended: when the key is absent or the stored bytes fail
to decode *without populating any field* (empty bytes, syntactically
invalid JSON, or a valid non-object document), both mutate handlers
swallow the decode error, write back a zero-value record with only the
caller-supplied fields applied, and still return success.  (A decode
failure that populates fields first — such as a valid object whose
`docStatus` is a string but whose `owner` is not — keeps the populated
fields instead of zeroing them.) -/
theorem claim_C6 (stub : Stub) (key a2 a3 : String)
    (hfail : jsonUnmarshalStudentDoc ((getState stub.state key).getD "") = (⟨"", ""⟩, true)) :
    (changeStudentDocOwner stub [key, a2]).1 = Response.success none ∧
    getState (changeStudentDocOwner stub [key, a2]).2.state key =
      some (marshalStudentDoc ⟨"", a2⟩) ∧
    (changeStudentDocStatus stub [key, a2, a3]).1 = Response.success none ∧
    getState (changeStudentDocStatus stub [key, a2, a3]).2.state key =
      some (marshalStudentDoc ⟨a3, a2⟩) := by
  have hh1 : changeStudentDocOwner stub [key, a2] =
      (Response.success none,
       { stub with state := putState stub.state key (marshalStudentDoc ⟨"", a2⟩) }) := by
    simp [changeStudentDocOwner, hfail]
  have hh2 : changeStudentDocStatus stub [key, a2, a3] =
      (Response.success none,
       { stub with state := putState stub.state key (marshalStudentDoc ⟨a3, a2⟩) }) := by
    simp [changeStudentDocStatus, hfail]
  exact ⟨by rw [hh1], by rw [hh1]; exact getState_putState_same _ _ _,
    by rw [hh2], by rw [hh2]; exact getState_putState_same _ _ _⟩

/-- Claim C6, witness: on an empty ledger (absent key, empty bytes — a
decode failure populating nothing) `changeStudentDocOwner` writes a
zero-status record with the new owner. -/
theorem claim_C6_witness :
    getState (changeStudentDocOwner stub0 ["k", "Alice"]).2.state "k" =
      some (marshalStudentDoc ⟨"", "Alice"⟩) :=
  (claim_C6 stub0 "k" "Alice" "x" (by decide)).2.1

/-- Claim C7: `Invoke` maps each of the seven recognized function names to
exactly its handler, and every other name yields an error response whose
message embeds the unrecognized name. -/
theorem claim_C7 (stub : Stub) (args : List String) (fn : String)
    (h : fn ∉ (["queryStudentDoc", "initLedger", "createStudentDoc", "queryAllStudentDocs",
      "changeStudentDocOwner", "changeStudentDocStatus", "getHistoryForStudentDoc"] :
      List String)) :
    Invoke stub fn args = (Response.error (fn ++ ": Invalid Smart Contract function name."), stub) ∧
    Invoke stub "queryStudentDoc" args = queryStudentDoc stub args ∧
    Invoke stub "initLedger" args = initLedger stub ∧
    Invoke stub "createStudentDoc" args = createStudentDoc stub args ∧
    Invoke stub "queryAllStudentDocs" args = queryAllStudentDocs stub ∧
    Invoke stub "changeStudentDocOwner" args = changeStudentDocOwner stub args ∧
    Invoke stub "changeStudentDocStatus" args = changeStudentDocStatus stub args ∧
    Invoke stub "getHistoryForStudentDoc" args = getHistoryForStudentDoc stub args := by
  simp only [List.mem_cons, List.not_mem_nil, or_false, not_or] at h
  obtain ⟨h1, h2, h3, h4, h5, h6, h7⟩ := h
  refine ⟨?_, rfl, rfl, rfl, rfl, rfl, rfl, rfl⟩
  simp [Invoke, h1, h2, h3, h4, h5, h6, h7]

/-- Claim C7, witness: the unrecognized name `bogus` produces the declared
error carrying the name. -/
theorem claim_C7_witness :
    Invoke stub0 "bogus" [] =
      (Response.error "bogus: Invalid Smart Contract function name.", stub0) :=
  (claim_C7 stub0 [] "bogus" (by decide)).1

/-- Claim C8: with exactly one argument, `queryStudentDoc` returns a success
whose payload is exactly the raw bytes the ledger holds for the key (absent
modeled as `none`); it never fails for an absent key. -/
theorem claim_C8 (stub : Stub) (key : String) :
    (queryStudentDoc stub [key]).1 = Response.success (getState stub.state key) := by
  simp [queryStudentDoc]

/-- Claim C9: the history JSON array lists the iterator entries in order
(comma-joined in iteration order), and each member `Value` position is
`null` exactly on the tombstone branch (otherwise the stored value verbatim)
while `IsDelete` is the formatted tombstone flag. -/
theorem claim_C9 (stub : Stub) (key : String) :
    (getHistoryForStudentDoc stub [key]).1 =
      Response.success (some ("[" ++
        commaJoin ((stub.history key).map (histEntryJson stub.timeFmt)) ++ "]")) ∧
    ∀ e : KeyModification,
      histEntryJson stub.timeFmt e =
        "\x7b\"TxId\":\"" ++ e.txId ++ "\", \"Value\":" ++
          (if e.isDelete then "null" else e.value) ++
          ", \"Timestamp\":\"" ++ stub.timeFmt e.timestampSec e.timestampNanos ++
          "\", \"IsDelete\":\"" ++ (if e.isDelete then "true" else "false") ++ "\"\x7d" := by
  constructor
  · simp [getHistoryForStudentDoc, buildJsonArray_eq]
  · intro e
    rfl

/-- Claim C10: the three query handlers never modify the ledger: the stub
they return is the stub they were given, for every input. -/
theorem claim_C10 (stub : Stub) (args : List String) :
    (queryStudentDoc stub args).2 = stub ∧
    (queryAllStudentDocs stub).2 = stub ∧
    (getHistoryForStudentDoc stub args).2 = stub := by
  refine ⟨?_, rfl, ?_⟩
  · unfold queryStudentDoc
    split <;> rfl
  · unfold getHistoryForStudentDoc
    split <;> rfl

end DocLedger
